import Mathlib

/-!
Verification of `src/yolox/src/transform.py`: data augmentation and
label-assignment preprocessing for YOLOX training.

Numeric values are modelled by exact rationals.  External cv2 routines
(`cv2.resize` pixel interpolation, `cv2.warpAffine` / `cv2.warpPerspective`,
the HSV colour conversion) are abstract function parameters: they belong to
OpenCV, not to this repository.  The `random.uniform` draws of
`random_perspective` are explicit arguments, constrained by hypotheses when a
claim pins their sampling interval down to a point.
-/

namespace Yolox

/-- One row of an `(n, 4)` numpy array of box coordinates: corner format
`(x1, y1, x2, y2)`, or centre format `(cx, cy, w, h)` after conversion by
`xyxy2cxcywh`.  Fields are the four columns, in order. -/
structure Box where
  v0 : ℚ
  v1 : ℚ
  v2 : ℚ
  v3 : ℚ
deriving DecidableEq

/-- Source: `xyxy2cxcywh(bboxes)`: the four sequential in-place column updates
(`col2 := col2 - col0`, `col3 := col3 - col1`, `col0 := col0 + col2 * 0.5`,
`col1 := col1 + col3 * 0.5`), where the last two updates read the already
updated columns 2 and 3. -/
def xyxy2cxcywh (b : Box) : Box :=
  let c2 := b.v2 - b.v0
  let c3 := b.v3 - b.v1
  { v0 := b.v0 + c2 * (1/2), v1 := b.v1 + c3 * (1/2), v2 := c2, v3 := c3 }

/-- The inverse map in the words of the spec (claim C8):
`x1 = cx - w/2`, `y1 = cy - h/2`, `x2 = cx + w/2`, `y2 = cy - h/2 + h`. -/
def cxcywh_inv (b : Box) : Box :=
  { v0 := b.v0 - b.v2 / 2, v1 := b.v1 - b.v3 / 2,
    v2 := b.v0 + b.v2 / 2, v3 := b.v1 - b.v3 / 2 + b.v3 }

/-- The `1e-16` guard the code adds to denominators in `box_candidates`. -/
def eps : ℚ := 1 / 10 ^ 16

/-- Source: `box_candidates(box1, box2, wh_thr, ar_thr, area_thr)` on one column pair
(`box1` a pre-transform box, `box2` the corresponding post-transform box):
`w2 > wh_thr and h2 > wh_thr and w2*h2/(w1*h1 + 1e-16) > area_thr and
max(w2/(h2+1e-16), h2/(w2+1e-16)) < ar_thr`. -/
def box_candidates (box1 box2 : Box) (wh_thr ar_thr area_thr : ℚ) : Bool :=
  let w1 := box1.v2 - box1.v0
  let h1 := box1.v3 - box1.v1
  let w2 := box2.v2 - box2.v0
  let h2 := box2.v3 - box2.v1
  let ar := max (w2 / (h2 + eps)) (h2 / (w2 + eps))
  decide (w2 > wh_thr) && decide (h2 > wh_thr) &&
    decide (w2 * h2 / (w1 * h1 + eps) > area_thr) && decide (ar < ar_thr)

/-- A height-by-width-by-channel image buffer (`img.shape = (h, w, 3)`):
dimensions plus a pixel map `pix i j ch`. -/
structure Image where
  h : ℕ
  w : ℕ
  pix : ℕ → ℕ → ℕ → ℚ

/-- A channel-first image buffer, as produced by `transpose(2, 0, 1)`:
`pix ch i j`. -/
structure ChwImage where
  c : ℕ
  h : ℕ
  w : ℕ
  pix : ℕ → ℕ → ℕ → ℚ

/-- The pixel content `cv2.resize(img, (dstW, dstH))` would produce: an
abstract interpolation oracle (OpenCV is outside this repository).  Arguments:
source image, destination width, destination height; result: pixel map
`i j ch` of the resized image, whose shape is `(dstH, dstW, 3)` by the
`cv2.resize` contract. -/
def Interp : Type := Image → ℕ → ℕ → (ℕ → ℕ → ℕ → ℚ)

/-- Source: `r = min(input_size[0] / img.shape[0], input_size[1] / img.shape[1])`
in `preproc`. -/
def preproc_r (img : Image) (input_size : ℕ × ℕ) : ℚ :=
  min ((input_size.1 : ℚ) / (img.h : ℚ)) ((input_size.2 : ℚ) / (img.w : ℚ))

/-- Source: `int(img.shape[0] * r)`: the resized height in `preproc`. -/
def preproc_rh (img : Image) (input_size : ℕ × ℕ) : ℕ :=
  (⌊(img.h : ℚ) * preproc_r img input_size⌋).toNat

/-- Source: `int(img.shape[1] * r)`: the resized width in `preproc`. -/
def preproc_rw (img : Image) (input_size : ℕ × ℕ) : ℕ :=
  (⌊(img.w : ℚ) * preproc_r img input_size⌋).toNat

/-- Source: `preproc(img, input_size)` for a 3-channel image with the default
`swap = (2, 0, 1)`: a canvas of shape `(input_size[0], input_size[1], 3)`
filled with the constant 114, the aspect-preserving resize placed at its
top-left corner, transposed channel-first; returned with the ratio `r`. -/
def preproc (interp : Interp) (img : Image) (input_size : ℕ × ℕ) :
    ChwImage × ℚ :=
  let r := preproc_r img input_size
  let rh := preproc_rh img input_size
  let rw := preproc_rw img input_size
  let resized := interp img rw rh
  let padded : ℕ → ℕ → ℕ → ℚ :=
    fun i j ch => if i < rh ∧ j < rw then resized i j ch else 114
  (⟨3, input_size.1, input_size.2, fun ch i j => padded i j ch⟩, r)

/-- A 3-by-3 homogeneous transform matrix (row-major fields). -/
structure Mat3 where
  a00 : ℚ
  a01 : ℚ
  a02 : ℚ
  a10 : ℚ
  a11 : ℚ
  a12 : ℚ
  a20 : ℚ
  a21 : ℚ
  a22 : ℚ
deriving DecidableEq

/-- Matrix product (`@` on the 3-by-3 matrices of `random_perspective`). -/
def Mat3.mul (A B : Mat3) : Mat3 :=
  ⟨A.a00 * B.a00 + A.a01 * B.a10 + A.a02 * B.a20,
   A.a00 * B.a01 + A.a01 * B.a11 + A.a02 * B.a21,
   A.a00 * B.a02 + A.a01 * B.a12 + A.a02 * B.a22,
   A.a10 * B.a00 + A.a11 * B.a10 + A.a12 * B.a20,
   A.a10 * B.a01 + A.a11 * B.a11 + A.a12 * B.a21,
   A.a10 * B.a02 + A.a11 * B.a12 + A.a12 * B.a22,
   A.a20 * B.a00 + A.a21 * B.a10 + A.a22 * B.a20,
   A.a20 * B.a01 + A.a21 * B.a11 + A.a22 * B.a21,
   A.a20 * B.a02 + A.a21 * B.a12 + A.a22 * B.a22⟩

/-- Source: `np.eye(3)`. -/
def Mat3.eye : Mat3 := ⟨1, 0, 0, 0, 1, 0, 0, 0, 1⟩

/-- One row of a target array: four box columns plus the class label column.
(`random_perspective` reads columns 0..3 and carries the rest through.) -/
structure TgtRow where
  box : Box
  label : ℚ
deriving DecidableEq

/-- Source: `targets[:, :4].T * s` (and `boxes *= r_` in `TrainTransform.__call__`):
every coordinate multiplied by the scalar. -/
def scaleBox (s : ℚ) (b : Box) : Box := ⟨b.v0 * s, b.v1 * s, b.v2 * s, b.v3 * s⟩

/-- Source: `np.clip(x, lo, hi)` on a scalar. -/
def clipQ (lo hi x : ℚ) : ℚ := min hi (max lo x)

/-- The centering matrix `C` of `random_perspective`: identity with
`C[0,2] = -img.shape[1]/2` and `C[1,2] = -img.shape[0]/2`. -/
def rpC (img : Image) : Mat3 :=
  ⟨1, 0, -(img.w : ℚ) / 2, 0, 1, -(img.h : ℚ) / 2, 0, 0, 1⟩

/-- The rotation-and-scale matrix `R`: its top two rows are
`cv2.getRotationMatrix2D(angle=a, center=(0,0), scale=s)`, i.e.
`[[s*cos a, s*sin a, 0], [-s*sin a, s*cos a, 0]]` (the center-(0,0)
translation terms vanish). `cosA`/`sinA` stand for the cosine and sine of the
sampled angle `a` (in degrees). -/
def rpR (cosA sinA s : ℚ) : Mat3 :=
  ⟨s * cosA, s * sinA, 0, -(s * sinA), s * cosA, 0, 0, 0, 1⟩

/-- The shear matrix `S`: identity with `S[0,1]` and `S[1,0]` set to the
tangents of the two sampled shear angles (in degrees, converted via
`math.tan(_ * math.pi / 180)`). `shx`/`shy` stand for those two tangent
values. -/
def rpS (shx shy : ℚ) : Mat3 := ⟨1, shx, 0, shy, 1, 0, 0, 0, 1⟩

/-- The translation matrix `T`: identity with `T[0,2] = t1 * width` and
`T[1,2] = t2 * height`, where `t1`, `t2` are the two sampled
`random.uniform(0.5 - translate, 0.5 + translate)` draws. -/
def rpT (t1 t2 width height : ℚ) : Mat3 :=
  ⟨1, 0, t1 * width, 0, 1, t2 * height, 0, 0, 1⟩

/-- The combined matrix `M = T @ S @ R @ C` of `random_perspective`.
`cosA`/`sinA` are the cosine and sine of the sampled rotation angle `a`,
`s` the sampled scale, `shx`/`shy` the sampled shear tangents, `t1`/`t2` the
sampled translation fractions. -/
def rpM (img : Image) (cosA sinA s shx shy t1 t2 width height : ℚ) : Mat3 :=
  (rpT t1 t2 width height).mul ((rpS shx shy).mul ((rpR cosA sinA s).mul (rpC img)))

/-- One homogeneous point `[x, y, 1] @ M.T`: the three coordinates
`(M00*x + M01*y + M02, M10*x + M11*y + M12, M20*x + M21*y + M22)`. -/
def applyM (M : Mat3) (x y : ℚ) : ℚ × ℚ × ℚ :=
  (M.a00 * x + M.a01 * y + M.a02,
   M.a10 * x + M.a11 * y + M.a12,
   M.a20 * x + M.a21 * y + M.a22)

/-- The box part of `random_perspective` for one target row: the four corners
`(x1,y1), (x2,y2), (x1,y2), (x2,y1)` are pushed through `M` (with perspective
division when the `perspective` parameter is nonzero), the new box is the
axis-aligned min/max of the transformed corners, and it is clipped to
`[0, width] x [0, height]`. -/
def rpBox (M : Mat3) (perspective width height : ℚ) (b : Box) : Box :=
  let q1 := applyM M b.v0 b.v1
  let q2 := applyM M b.v2 b.v3
  let q3 := applyM M b.v0 b.v3
  let q4 := applyM M b.v2 b.v1
  let p1 := if perspective = 0 then (q1.1, q1.2.1) else (q1.1 / q1.2.2, q1.2.1 / q1.2.2)
  let p2 := if perspective = 0 then (q2.1, q2.2.1) else (q2.1 / q2.2.2, q2.2.1 / q2.2.2)
  let p3 := if perspective = 0 then (q3.1, q3.2.1) else (q3.1 / q3.2.2, q3.2.1 / q3.2.2)
  let p4 := if perspective = 0 then (q4.1, q4.2.1) else (q4.1 / q4.2.2, q4.2.1 / q4.2.2)
  let xmin := min (min p1.1 p2.1) (min p3.1 p4.1)
  let ymin := min (min p1.2 p2.2) (min p3.2 p4.2)
  let xmax := max (max p1.1 p2.1) (max p3.1 p4.1)
  let ymax := max (max p1.2 p2.2) (max p3.2 p4.2)
  ⟨clipQ 0 width xmin, clipQ 0 height ymin, clipQ 0 width xmax, clipQ 0 height ymax⟩

/-- Source: `random_perspective(img, targets, ..., perspective, border)`.

The six `random.uniform` draws are explicit arguments: `a` the rotation angle
sampled from `[-degrees, degrees]`, `s` the scale sampled from `scale`,
`shx`/`shy` the tangents of the shear angles sampled from `[-shear, shear]`,
and `t1`/`t2` the translation fractions sampled from
`[0.5 - translate, 0.5 + translate]`; `cosA`/`sinA` are the cosine and sine
of `a`.  `warpP`/`warpA` are the abstract `cv2.warpPerspective` /
`cv2.warpAffine` collaborators, taking the image, the matrix, and `dsize =
(width, height)`. -/
def random_perspective
    (warpP warpA : Image → Mat3 → ℤ × ℤ → Image)
    (cosA sinA s shx shy t1 t2 : ℚ)
    (img : Image) (targets : List TgtRow)
    (perspective : ℚ) (border : ℤ × ℤ) : Image × List TgtRow :=
  let height : ℤ := (img.h : ℤ) + border.1 * 2
  let width : ℤ := (img.w : ℤ) + border.2 * 2
  let M := rpM img cosA sinA s shx shy t1 t2 (width : ℚ) (height : ℚ)
  let img' :=
    if border.1 ≠ 0 ∨ border.2 ≠ 0 ∨ M ≠ Mat3.eye then
      (if perspective = 0 then warpA img M (width, height)
       else warpP img M (width, height))
    else img
  let targets' :=
    if targets = [] then targets
    else
      (targets.filter fun r =>
          box_candidates (scaleBox s r.box)
            (rpBox M perspective (width : ℚ) (height : ℚ) r.box) 2 20 (1/5)).map
        fun r => ⟨rpBox M perspective (width : ℚ) (height : ℚ) r.box, r.label⟩
  (img', targets')

/-- Clipping a corner-format box to the canvas `[0, w] x [0, h]`, as the
`# clip boxes` step of `random_perspective` does. -/
def clipBoxTo (w h : ℚ) (b : Box) : Box :=
  ⟨clipQ 0 w b.v0, clipQ 0 h b.v1, clipQ 0 w b.v2, clipQ 0 h b.v3⟩

/-- A concrete 8-by-8 all-zero image, used by concrete instances below. -/
def img8 : Image := ⟨8, 8, fun _ _ _ => 0⟩

/-- The box remap of `_mirror` when the flip fires:
`boxes[:, 0::2] = width - boxes[:, 2::-2]`, i.e. new column 0 is
`width - old column 2` and new column 2 is `width - old column 0`. -/
def mirrorBox (w : ℕ) (b : Box) : Box :=
  ⟨(w : ℚ) - b.v2, b.v1, (w : ℚ) - b.v0, b.v3⟩

/-- The image flip `image[:, ::-1]` of `_mirror`. -/
def flipImage (img : Image) : Image :=
  ⟨img.h, img.w, fun i j ch => img.pix i (img.w - 1 - j) ch⟩

/-- The configuration object accepted by `TrainTransform.__init__`. -/
structure Config where
  max_gt : ℕ
  flip_prob : ℚ
  hsv_prob : ℚ
  fpn_strides : List ℕ
  input_size : ℕ × ℕ

/-- The state a `TrainTransform` instance holds after `__init__`. -/
structure TrainTransform where
  max_labels : ℕ
  flip_prob : ℚ
  hsv_prob : ℚ
  strides : List ℕ
  input_size : ℕ × ℕ

/-- Source: `TrainTransform.__init__(max_labels, flip_prob, hsv_prob, config)`:
with a config object every field comes from the config; without one the
instance uses `hsv_prob = 1.0`, `flip_prob = 0.5`, the `max_labels`
argument, strides `[8, 16, 32]` and input size `(640, 640)`. -/
def TrainTransform.init (max_labels : ℕ) (flip_prob hsv_prob : ℚ)
    (config : Option Config) : TrainTransform :=
  match config with
  | some c => ⟨c.max_gt, c.flip_prob, c.hsv_prob, c.fpn_strides, c.input_size⟩
  | none => ⟨max_labels, 1/2, 1, [8, 16, 32], (640, 640)⟩

/-- Source: `self.grid_size = [(input_size[0]/x) * (input_size[1]/x) for x in strides]`
(true division, so a list of rationals). -/
def TrainTransform.grid_size (t : TrainTransform) : List ℚ :=
  t.strides.map fun x =>
    ((t.input_size.1 : ℚ) / (x : ℚ)) * ((t.input_size.2 : ℚ) / (x : ℚ))

/-- Source: `self.num_total_anchor = int(sum(self.grid_size))`. -/
def TrainTransform.num_total_anchor (t : TrainTransform) : ℕ :=
  (⌊t.grid_size.sum⌋).toNat

/-- One flattened grid cell of `get_grid`: its `x_shift`, `y_shift`, and the
stride it belongs to. -/
structure Anchor where
  x : ℕ
  y : ℕ
  s : ℕ
deriving DecidableEq

/-- The flattened `meshgrid(arange(gy), arange(gx))` of one stride in
`get_grid`: row-major over `(i, j)` with `i < gx`, `j < gy`; cell `(i, j)`
contributes `x_shift = j`, `y_shift = i`. -/
def strideGrid (gx gy s : ℕ) : List Anchor :=
  (List.range gx).flatMap fun i => (List.range gy).map fun j => ⟨j, i, s⟩

/-- Source: `get_grid`: per stride, grid sizes `int(input_size[0]/stride)` by
`int(input_size[1]/stride)`, flattened and concatenated in stride order;
every cell is tagged with its stride (`expanded_strides`). -/
def TrainTransform.get_grid (t : TrainTransform) : List Anchor :=
  t.strides.flatMap fun s =>
    strideGrid (t.input_size.1 / s) (t.input_size.2 / s) s

/-- The anchor-centre x coordinate used by `get_in_boxes_info`:
`x_shifts_per_image + 0.5 * expanded_strides` with
`x_shifts_per_image = x_shifts * expanded_strides`. -/
def anchorCx (a : Anchor) : ℚ := (a.x : ℚ) * (a.s : ℚ) + (1/2) * (a.s : ℚ)

/-- The anchor-centre y coordinate used by `get_in_boxes_info`. -/
def anchorCy (a : Anchor) : ℚ := (a.y : ℚ) * (a.s : ℚ) + (1/2) * (a.s : ℚ)

/-- The `is_in_boxes` test of `get_in_boxes_info` for one (ground-truth box,
anchor) pair: the four deltas to the box edges (`b_l`, `b_t`, `b_r`, `b_b`,
box in centre format) are stacked and their minimum compared `> 0`. -/
def inBoxB (g : Box) (a : Anchor) : Bool :=
  let ax := anchorCx a
  let ay := anchorCy a
  let b_l := ax - (g.v0 - (1/2) * g.v2)
  let b_r := (g.v0 + (1/2) * g.v2) - ax
  let b_t := ay - (g.v1 - (1/2) * g.v3)
  let b_b := (g.v1 + (1/2) * g.v3) - ay
  decide (0 < min (min (min b_l b_t) b_r) b_b)

/-- The `is_in_centers` test of `get_in_boxes_info` for one pair: deltas to
the square of half-width `center_radius * stride = 2.5 * stride` centred at
the box centre, stacked (`c_l`, `c_r`, `c_t`, `c_b`) and minimum `> 0`. -/
def inCenterB (g : Box) (a : Anchor) : Bool :=
  let ax := anchorCx a
  let ay := anchorCy a
  let c_l := ax - (g.v0 - (5/2) * (a.s : ℚ))
  let c_r := (g.v0 + (5/2) * (a.s : ℚ)) - ax
  let c_t := ay - (g.v1 - (5/2) * (a.s : ℚ))
  let c_b := (g.v1 + (5/2) * (a.s : ℚ)) - ay
  decide (0 < min (min (min c_l c_r) c_t) c_b)

/-- A boolean matrix (numpy bool array): shape plus entries. -/
structure Mask where
  rows : ℕ
  cols : ℕ
  entry : ℕ → ℕ → Bool

/-- The all-zero default box of a padding row. -/
def box0 : Box := ⟨0, 0, 0, 0⟩

/-- Default anchor (never hit on in-range column indices). -/
def anchor0 : Anchor := ⟨0, 0, 0⟩

/-- The `is_in_boxes` matrix of `get_in_boxes_info`, with rows at index
`true_lables` and beyond overwritten to `False`.  Its row count is
`max_labels` (the broadcast height of `x_centers_per_image`) and its column
count the number of anchors of `get_grid`. -/
def TrainTransform.is_in_boxes (t : TrainTransform) (gt : List Box)
    (tl : ℕ) : Mask :=
  ⟨t.max_labels, t.get_grid.length,
   fun i j => decide (i < tl) && inBoxB (gt.getD i box0) (t.get_grid.getD j anchor0)⟩

/-- The `is_in_centers` matrix of `get_in_boxes_info`, padding rows forced
`False`. -/
def TrainTransform.is_in_centers (t : TrainTransform) (gt : List Box)
    (tl : ℕ) : Mask :=
  ⟨t.max_labels, t.get_grid.length,
   fun i j => decide (i < tl) && inCenterB (gt.getD i box0) (t.get_grid.getD j anchor0)⟩

/-- Source: `get_in_boxes_info(gt_bboxes_per_image, true_lables)`: returns
`is_in_boxes_all = is_in_boxes | is_in_centers` and
`is_in_boxes_and_center = is_in_boxes & is_in_centers`, elementwise. -/
def TrainTransform.get_in_boxes_info (t : TrainTransform) (gt : List Box)
    (tl : ℕ) : Mask × Mask :=
  let ib := t.is_in_boxes gt tl
  let ic := t.is_in_centers gt tl
  (⟨t.max_labels, t.get_grid.length, fun i j => ib.entry i j || ic.entry i j⟩,
   ⟨t.max_labels, t.get_grid.length, fun i j => ib.entry i j && ic.entry i j⟩)

/-- Source: `m.any(1)` at row `i`: does any in-range column hold? -/
def Mask.anyRow (m : Mask) (i : ℕ) : Bool :=
  (List.range m.cols).any fun j => m.entry i j

/-- Source: `m.any(0)` at column `j`: does any in-range row hold? -/
def Mask.anyCol (m : Mask) (j : ℕ) : Bool :=
  (List.range m.rows).any fun i => m.entry i j

/-- The caller-side aggregation
`m.any(1).reshape((-1,1)) * m.any(0).reshape((1,-1))`: the outer product of
the any-over-anchors column vector with the any-over-ground-truths row
vector, broadcast back to the original shape. -/
def Mask.outerAgg (m : Mask) : Mask :=
  ⟨m.rows, m.cols, fun i j => m.anyRow i && m.anyCol j⟩

/-- One row of the `(max_labels, 5)` padded label tensor:
`(label, cx, cy, w, h)` after `np.hstack((labels_t, boxes_t))`. -/
def Row5 : Type := ℚ × ℚ × ℚ × ℚ × ℚ

/-- Source: `np.hstack` of one label with one centre-format box. -/
def row5 (lab : ℚ) (b : Box) : Row5 := (lab, b.v0, b.v1, b.v2, b.v3)

/-- Source: `padded_labels[:, 1:5]` of one row. -/
def rowBox (r : Row5) : Box := ⟨r.2.1, r.2.2.1, r.2.2.2.1, r.2.2.2.2⟩

/-- A zero row of the padded label tensor. -/
def zeroRow : Row5 := (0, 0, 0, 0, 0)

/-- Source: `padded_labels = np.zeros((m, 5))` overwritten on its first
`min(len(rows), m)` rows by `rows[:m]`. -/
def padRows (m : ℕ) (rows : List Row5) : List Row5 :=
  rows.take m ++ List.replicate (m - (rows.take m).length) zeroRow

/-- The image after the probabilistic HSV and mirror steps of `__call__`
(`augment_hsv(image)` in place when the HSV draw fires, then
`_mirror`'s flip when the flip draw fires). -/
def augImage (hsvT : Image → Image) (doHsv doMirror : Bool)
    (image : Image) : Image :=
  let image1 := if doHsv then hsvT image else image
  if doMirror then flipImage image1 else image1

/-- The box columns after the mirror step of `__call__` (HSV does not touch
them; the mirror remap uses the width of the image `_mirror` receives). -/
def augBoxes (hsvT : Image → Image) (doHsv doMirror : Bool)
    (image : Image) (targets : List TgtRow) : List Box :=
  let image1 := if doHsv then hsvT image else image
  if doMirror then targets.map fun r => mirrorBox image1.w r.box
  else targets.map fun r => r.box

/-- The boxes of `__call__` after mirror, conversion to centre format and
rescaling by the `preproc` ratio (`boxes = xyxy2cxcywh(boxes); boxes *= r_`). -/
def scaledBoxes (interp : Interp) (hsvT : Image → Image)
    (doHsv doMirror : Bool) (image : Image) (targets : List TgtRow)
    (input_dim : ℕ × ℕ) : List Box :=
  (augBoxes hsvT doHsv doMirror image targets).map fun b =>
    scaleBox (preproc interp (augImage hsvT doHsv doMirror image) input_dim).2
      (xyxy2cxcywh b)

/-- Source: `TrainTransform.__call__(image, targets, input_dim)`.

`interp` is the abstract `cv2.resize` oracle of `preproc`; `hsvT` the
abstract in-place effect of `augment_hsv` on the image buffer (box columns
are untouched by it); `doHsv` and `doMirror` the outcomes of the two
`random.random() < prob` draws.

Branches, as in the source: with no boxes, the image is resized alone and
zero labels plus two all-False masks of shape
`(max_labels, num_total_anchor)` are returned.  Otherwise the original
boxes are converted to centre format for the fallback path, HSV and mirror
fire according to their draws, the image is resized, boxes are converted to
centre format and rescaled by the resize ratio, boxes with
`min(w, h) <= 1` are dropped together with their labels, and if that drops
everything the un-augmented original image is resized and the original
centre-format boxes rescaled by its ratio are used with their original
labels.  The surviving rows are packed into the fixed `(max_labels, 5)`
tensor, and the membership masks are computed from it and the true row
count, the first aggregated by `Mask.outerAgg`. -/
def TrainTransform.call (t : TrainTransform) (interp : Interp)
    (hsvT : Image → Image) (doHsv doMirror : Bool)
    (image : Image) (targets : List TgtRow) (input_dim : ℕ × ℕ) :
    ChwImage × List Row5 × Mask × Mask :=
  if targets = [] then
    ((preproc interp image input_dim).1, List.replicate t.max_labels zeroRow,
     ⟨t.max_labels, t.num_total_anchor, fun _ _ => false⟩,
     ⟨t.max_labels, t.num_total_anchor, fun _ _ => false⟩)
  else
    let boxes_o := targets.map fun r => xyxy2cxcywh r.box
    let labels_o := targets.map fun r => r.label
    let pp := preproc interp (augImage hsvT doHsv doMirror image) input_dim
    let boxes1 := scaledBoxes interp hsvT doHsv doMirror image targets input_dim
    let pairs := boxes1.zip labels_o
    let kept := pairs.filter fun p => decide (1 < min p.1.v2 p.1.v3)
    let fb :=
      if kept.isEmpty then
        let pp_o := preproc interp image input_dim
        (pp_o.1, (boxes_o.map fun b => scaleBox pp_o.2 b).zip labels_o)
      else (pp.1, kept)
    let rows_t := fb.2.map fun p => row5 p.2 p.1
    let true_labels := rows_t.length
    let padded := padRows t.max_labels rows_t
    let gt := padded.map rowBox
    let info := t.get_in_boxes_info gt true_labels
    (fb.1, padded, info.1.outerAgg, info.2)

/-- The claim's geometric wording for `is_in_boxes`: the anchor centre lies
strictly inside the centre-format box's four edges. -/
def insideBoxQ (g : Box) (a : Anchor) : Prop :=
  g.v0 - (1/2) * g.v2 < anchorCx a ∧ anchorCx a < g.v0 + (1/2) * g.v2 ∧
  g.v1 - (1/2) * g.v3 < anchorCy a ∧ anchorCy a < g.v1 + (1/2) * g.v3

/-- The claim's geometric wording for `is_in_centers`: the anchor centre
lies strictly inside the axis-aligned square of half-width `2.5 * stride`
centred on the box centre. -/
def insideSquareQ (g : Box) (a : Anchor) : Prop :=
  g.v0 - (5/2) * (a.s : ℚ) < anchorCx a ∧ anchorCx a < g.v0 + (5/2) * (a.s : ℚ) ∧
  g.v1 - (5/2) * (a.s : ℚ) < anchorCy a ∧ anchorCy a < g.v1 + (5/2) * (a.s : ℚ)

/-- A small concrete configuration for witnesses: 2 ground-truth slots, one
stride 8, input size 8 by 8 (a single anchor with centre `(4, 4)`). -/
def tcfg : TrainTransform :=
  TrainTransform.init 50 0 0 (some ⟨2, 1/2, 1, [8], (8, 8)⟩)

/-- The trivial all-zero interpolation oracle, for concrete instances. -/
def interp0 : Interp := fun _ _ _ _ _ _ => 0

/-- C8: for every box array, applying `xyxy2cxcywh` and then the inverse map
`(cx - w/2, cy - h/2, cx + w/2, cy - h/2 + h)` recovers the original corner
coordinates of every box. -/
theorem c8_xyxy2cxcywh_roundtrip (bs : List Box) :
    (bs.map xyxy2cxcywh).map cxcywh_inv = bs := by
  rw [List.map_map]
  have h : ∀ b : Box, (cxcywh_inv ∘ xyxy2cxcywh) b = b := by
    intro b
    cases b with
    | mk a b c d =>
      simp only [Function.comp_apply, xyxy2cxcywh, cxcywh_inv, Box.mk.injEq]
      refine ⟨by ring, by ring, by ring, by ring⟩
  calc bs.map (cxcywh_inv ∘ xyxy2cxcywh) = bs.map id := List.map_congr_left fun b _ => h b
    _ = bs := List.map_id bs

/-- C6: `box_candidates` with the default thresholds (`wh_thr = 2`,
`ar_thr = 20`, `area_thr = 0.2`) rejects every box whose post-transform width
or height is at most 2 pixels; rejects every box whose aspect ratio, as the
code computes it (`max(w2/(h2+1e-16), h2/(w2+1e-16))`), is at least 20;
rejects every box whose post/pre area ratio is at most 0.2 (both for the
code's guarded ratio and, given a positive pre-transform area, for the exact
ratio `w2*h2/(w1*h1)`); and keeps a box only if it passes all three
criteria. -/
theorem c6_box_candidates_thresholds (box1 box2 : Box) :
    ((box2.v2 - box2.v0 ≤ 2 ∨ box2.v3 - box2.v1 ≤ 2) →
        box_candidates box1 box2 2 20 (1/5) = false) ∧
    (20 ≤ max ((box2.v2 - box2.v0) / (box2.v3 - box2.v1 + eps))
            ((box2.v3 - box2.v1) / (box2.v2 - box2.v0 + eps)) →
        box_candidates box1 box2 2 20 (1/5) = false) ∧
    ((box2.v2 - box2.v0) * (box2.v3 - box2.v1) /
          ((box1.v2 - box1.v0) * (box1.v3 - box1.v1) + eps) ≤ 1/5 →
        box_candidates box1 box2 2 20 (1/5) = false) ∧
    (0 < (box1.v2 - box1.v0) * (box1.v3 - box1.v1) →
      (box2.v2 - box2.v0) * (box2.v3 - box2.v1) /
          ((box1.v2 - box1.v0) * (box1.v3 - box1.v1)) ≤ 1/5 →
        box_candidates box1 box2 2 20 (1/5) = false) ∧
    (box_candidates box1 box2 2 20 (1/5) = true →
        2 < box2.v2 - box2.v0 ∧ 2 < box2.v3 - box2.v1 ∧
        1/5 < (box2.v2 - box2.v0) * (box2.v3 - box2.v1) /
            ((box1.v2 - box1.v0) * (box1.v3 - box1.v1) + eps) ∧
        max ((box2.v2 - box2.v0) / (box2.v3 - box2.v1 + eps))
            ((box2.v3 - box2.v1) / (box2.v2 - box2.v0 + eps)) < 20) := by
  have heps : (0:ℚ) < eps := by norm_num [eps]
  simp only [box_candidates, Bool.and_eq_true, decide_eq_true_eq,
    Bool.and_eq_false_iff, decide_eq_false_iff_not, not_lt]
  refine ⟨?_, ?_, ?_, ?_, ?_⟩
  · rintro (h | h)
    · exact Or.inl (Or.inl (Or.inl h))
    · exact Or.inl (Or.inl (Or.inr h))
  · intro h
    exact Or.inr h
  · intro h
    exact Or.inl (Or.inr h)
  · intro hpos hratio
    refine Or.inl (Or.inr ?_)
    have hden : (0:ℚ) < (box1.v2 - box1.v0) * (box1.v3 - box1.v1) + eps := by linarith
    rw [div_le_iff₀ hden]
    have h1 : (box2.v2 - box2.v0) * (box2.v3 - box2.v1) ≤
        1/5 * ((box1.v2 - box1.v0) * (box1.v3 - box1.v1)) :=
      (div_le_iff₀ hpos).mp hratio
    nlinarith
  · intro h
    obtain ⟨⟨⟨hw, hh⟩, harea⟩, har⟩ := h
    exact ⟨hw, hh, harea, har⟩

/-- Concrete witness for C6: a 1-by-1 post-transform box (width at most 2) is
rejected. -/
theorem c6_box_candidates_thresholds_witness :
    (((⟨0,0,1,1⟩ : Box).v2 - (⟨0,0,1,1⟩ : Box).v0 ≤ 2 ∨
        (⟨0,0,1,1⟩ : Box).v3 - (⟨0,0,1,1⟩ : Box).v1 ≤ 2) ∧
      box_candidates ⟨0,0,3,3⟩ ⟨0,0,1,1⟩ 2 20 (1/5) = false) :=
  ⟨Or.inl (by norm_num),
    (c6_box_candidates_thresholds ⟨0,0,3,3⟩ ⟨0,0,1,1⟩).1 (Or.inl (by norm_num))⟩

/-- C7: `preproc` on an image of shape `(100, 50, 3)` with target size
`(640, 640)` computes `r = min(640/100, 640/50) = 6.4`, resizes to height 640
and width 320, places the resized image at the top-left of the canvas, fills
every remaining canvas pixel with 114 exactly, and returns the channel-first
padded image together with `r`. -/
theorem c7_preproc_100_50 (interp : Interp) (pix : ℕ → ℕ → ℕ → ℚ) :
    (preproc interp ⟨100, 50, pix⟩ (640, 640)).2 = 32/5 ∧
    preproc_rh ⟨100, 50, pix⟩ (640, 640) = 640 ∧
    preproc_rw ⟨100, 50, pix⟩ (640, 640) = 320 ∧
    (preproc interp ⟨100, 50, pix⟩ (640, 640)).1.c = 3 ∧
    (preproc interp ⟨100, 50, pix⟩ (640, 640)).1.h = 640 ∧
    (preproc interp ⟨100, 50, pix⟩ (640, 640)).1.w = 640 ∧
    (∀ ch i j, i < 640 → j < 320 →
      (preproc interp ⟨100, 50, pix⟩ (640, 640)).1.pix ch i j =
        interp ⟨100, 50, pix⟩ 320 640 i j ch) ∧
    (∀ ch i j, 320 ≤ j →
      (preproc interp ⟨100, 50, pix⟩ (640, 640)).1.pix ch i j = 114) := by
  have hr : preproc_r (⟨100, 50, pix⟩ : Image) (640, 640) = 32/5 := by
    simp only [preproc_r]
    norm_num [min_def]
  have hrh : preproc_rh (⟨100, 50, pix⟩ : Image) (640, 640) = 640 := by
    simp only [preproc_rh, hr]
    norm_num
    rfl
  have hrw : preproc_rw (⟨100, 50, pix⟩ : Image) (640, 640) = 320 := by
    simp only [preproc_rw, hr]
    norm_num
    rfl
  refine ⟨hr, hrh, hrw, rfl, rfl, rfl, ?_, ?_⟩
  · intro ch i j hi hj
    simp only [preproc, hrh, hrw]
    rw [if_pos ⟨hi, hj⟩]
  · intro ch i j hj
    simp only [preproc, hrh, hrw]
    rw [if_neg]
    rintro ⟨-, hjl⟩
    omega

theorem scaleBox_one (b : Box) : scaleBox 1 b = b := by
  cases b
  simp [scaleBox]

theorem rpM_identity (img : Image) (W H : ℚ)
    (hW : W = (img.w : ℚ)) (hH : H = (img.h : ℚ)) :
    rpM img 1 0 1 0 0 (1/2) (1/2) W H = Mat3.eye := by
  subst hW hH
  simp only [rpM, rpR, rpS, rpT, rpC, Mat3.mul, Mat3.eye, Mat3.mk.injEq]
  refine ⟨by ring, by ring, by ring, by ring, by ring, by ring, by ring, by ring, by ring⟩

theorem rpBox_eye (W H : ℚ) (b : Box)
    (h02 : b.v0 ≤ b.v2) (h13 : b.v1 ≤ b.v3) :
    rpBox Mat3.eye 0 W H b = clipBoxTo W H b := by
  have h1 : b.v0 ⊓ b.v2 = b.v0 := min_eq_left h02
  have h2 : b.v1 ⊓ b.v3 = b.v1 := min_eq_left h13
  have h3 : b.v0 ⊔ b.v2 = b.v2 := max_eq_right h02
  have h4 : b.v1 ⊔ b.v3 = b.v3 := max_eq_right h13
  have h5 : b.v3 ⊔ b.v1 = b.v3 := max_eq_left h13
  simp only [rpBox, applyM, Mat3.eye, clipBoxTo, if_pos rfl]
  norm_num
  simp [h1, h2, h3, h4, h5]

/-- C3 counterexample: with `degrees=0`, `translate=0`, `scale=(1,1)`,
`shear=0`, `perspective=0`, `border=(0,0)` (so every sampled value is forced:
rotation angle 0 with cosine 1 and sine 0, scale 1, shear tangents 0,
translation fractions 1/2), an in-canvas box of width 1 is dropped by the
`box_candidates` filter, so the returned boxes do not equal the input boxes
up to clipping. -/
theorem c3_identity_counterexample :
    (random_perspective (fun i _ _ => i) (fun i _ _ => i) 1 0 1 0 0 (1/2) (1/2)
        ⟨8, 8, fun _ _ _ => 0⟩ [⟨⟨0, 0, 1, 4⟩, 5⟩] 0 (0, 0)).2 ≠
      [⟨⟨0, 0, 1, 4⟩, 5⟩] := by
  norm_num [random_perspective, rpM, rpR, rpS, rpT, rpC, Mat3.mul, Mat3.eye,
    rpBox, applyM, clipQ, box_candidates, eps, scaleBox, List.filter, min_def, max_def]

/-- C3 (amended): with `degrees=0`, `translate=0`, `scale=(1,1)`, `shear=0`,
`perspective=0` and `border=(0,0)` — so the sampled rotation angle is 0
(cosine 1, sine 0), the scale is 1, the shear tangents are 0 and the
translation fractions are 1/2 — `random_perspective` composes the identity
matrix `M`, skips the warp so the output image equals the input image, and
returns, for every corner-format target list, exactly those input rows whose
clipped box passes the `box_candidates` filter, with their boxes clipped to
the canvas bounds; rows failing the filter are dropped. -/
theorem c3_identity_amended
    (warpP warpA : Image → Mat3 → ℤ × ℤ → Image)
    (cosA sinA s shx shy t1 t2 : ℚ)
    (img : Image) (targets : List TgtRow)
    (hcos : cosA = 1) (hsin : sinA = 0) (hs : s = 1)
    (hshx : shx = 0) (hshy : shy = 0) (ht1 : t1 = 1/2) (ht2 : t2 = 1/2)
    (hcorner : ∀ r ∈ targets, r.box.v0 ≤ r.box.v2 ∧ r.box.v1 ≤ r.box.v3) :
    rpM img cosA sinA s shx shy t1 t2 (img.w : ℚ) (img.h : ℚ) = Mat3.eye ∧
    (random_perspective warpP warpA cosA sinA s shx shy t1 t2
        img targets 0 (0, 0)).1 = img ∧
    (random_perspective warpP warpA cosA sinA s shx shy t1 t2
        img targets 0 (0, 0)).2 =
      (targets.filter fun r =>
          box_candidates r.box (clipBoxTo (img.w : ℚ) (img.h : ℚ) r.box)
            2 20 (1/5)).map
        fun r => ⟨clipBoxTo (img.w : ℚ) (img.h : ℚ) r.box, r.label⟩ := by
  subst hcos hsin hs hshx hshy ht1 ht2
  have hW : (((img.w : ℤ) + 0 * 2 : ℤ) : ℚ) = (img.w : ℚ) := by push_cast; ring
  have hH : (((img.h : ℤ) + 0 * 2 : ℤ) : ℚ) = (img.h : ℚ) := by push_cast; ring
  have hM : rpM img 1 0 1 0 0 (1/2) (1/2)
      (((img.w : ℤ) + 0 * 2 : ℤ) : ℚ) (((img.h : ℤ) + 0 * 2 : ℤ) : ℚ) = Mat3.eye :=
    rpM_identity img _ _ hW hH
  refine ⟨rpM_identity img _ _ rfl rfl, ?_, ?_⟩
  · simp only [random_perspective, hM]
    simp
  · have hM' : rpM img 1 0 1 0 0 (1/2) (1/2) (img.w : ℚ) (img.h : ℚ) = Mat3.eye :=
      rpM_identity img _ _ rfl rfl
    simp only [random_perspective, hW, hH, hM']
    by_cases hemp : targets = []
    · simp [hemp]
    · rw [if_neg hemp]
      have hfil : ∀ r ∈ targets,
          box_candidates (scaleBox 1 r.box)
              (rpBox Mat3.eye 0 (img.w : ℚ) (img.h : ℚ) r.box) 2 20 (1/5) =
            box_candidates r.box (clipBoxTo (img.w : ℚ) (img.h : ℚ) r.box)
              2 20 (1/5) := by
        intro r hr
        rw [rpBox_eye _ _ _ (hcorner r hr).1 (hcorner r hr).2, scaleBox_one]
      rw [List.filter_congr hfil]
      apply List.map_congr_left
      intro r hr
      have hmem := List.mem_of_mem_filter hr
      rw [rpBox_eye _ _ _ (hcorner r hmem).1 (hcorner r hmem).2]

/-- Concrete witness for C3 (amended): an 8-by-8 image with a single
corner-format box `(0, 0, 4, 4)` which passes the filter and is returned
unchanged. -/
theorem c3_identity_amended_witness :
    (∀ r ∈ [(⟨⟨0, 0, 4, 4⟩, 5⟩ : TgtRow)],
        r.box.v0 ≤ r.box.v2 ∧ r.box.v1 ≤ r.box.v3) ∧
    (rpM img8 1 0 1 0 0 (1/2) (1/2) (img8.w : ℚ) (img8.h : ℚ) = Mat3.eye ∧
      (random_perspective (fun i _ _ => i) (fun i _ _ => i) 1 0 1 0 0 (1/2) (1/2)
          img8 [⟨⟨0, 0, 4, 4⟩, 5⟩] 0 (0, 0)).1 = img8 ∧
      (random_perspective (fun i _ _ => i) (fun i _ _ => i) 1 0 1 0 0 (1/2) (1/2)
          img8 [⟨⟨0, 0, 4, 4⟩, 5⟩] 0 (0, 0)).2 =
        ([(⟨⟨0, 0, 4, 4⟩, 5⟩ : TgtRow)].filter fun r =>
            box_candidates r.box (clipBoxTo (img8.w : ℚ) (img8.h : ℚ) r.box)
              2 20 (1/5)).map
          fun r => ⟨clipBoxTo (img8.w : ℚ) (img8.h : ℚ) r.box, r.label⟩) :=
  ⟨by decide,
    c3_identity_amended (fun i _ _ => i) (fun i _ _ => i) 1 0 1 0 0 (1/2) (1/2)
      img8 [⟨⟨0, 0, 4, 4⟩, 5⟩]
      rfl rfl rfl rfl rfl rfl rfl (by decide)⟩

theorem inBoxB_iff (g : Box) (a : Anchor) : inBoxB g a = true ↔ insideBoxQ g a := by
  simp only [inBoxB, insideBoxQ, decide_eq_true_eq, lt_min_iff]
  constructor
  · rintro ⟨⟨⟨h1, h2⟩, h3⟩, h4⟩
    exact ⟨by linarith, by linarith, by linarith, by linarith⟩
  · rintro ⟨h1, h2, h3, h4⟩
    exact ⟨⟨⟨by linarith, by linarith⟩, by linarith⟩, by linarith⟩

theorem inCenterB_iff (g : Box) (a : Anchor) :
    inCenterB g a = true ↔ insideSquareQ g a := by
  simp only [inCenterB, insideSquareQ, decide_eq_true_eq, lt_min_iff]
  constructor
  · rintro ⟨⟨⟨h1, h2⟩, h3⟩, h4⟩
    exact ⟨by linarith, by linarith, by linarith, by linarith⟩
  · rintro ⟨h1, h2, h3, h4⟩
    exact ⟨⟨⟨by linarith, by linarith⟩, by linarith⟩, by linarith⟩

/-- C9: constructed without a config object, `TrainTransform.__init__`
ignores the `flip_prob` and `hsv_prob` arguments — the instance always uses
`flip_prob = 0.5` and `hsv_prob = 1.0` regardless of the passed values —
while `max_labels` is taken from the argument. -/
theorem c9_init_without_config_ignores_probs (max_labels : ℕ)
    (flip_prob hsv_prob : ℚ) :
    (TrainTransform.init max_labels flip_prob hsv_prob none).flip_prob = 1/2 ∧
    (TrainTransform.init max_labels flip_prob hsv_prob none).hsv_prob = 1 ∧
    (TrainTransform.init max_labels flip_prob hsv_prob none).max_labels =
      max_labels :=
  ⟨rfl, rfl, rfl⟩

/-- C5: `__call__` on a target array containing no boxes returns, without
raising and with no augmentation applied, the image resized alone, a
zero-filled label tensor of shape `(max_labels, 5)`, and two all-False
boolean masks of shape `(max_labels, num_total_anchor)`. -/
theorem c5_call_no_boxes (t : TrainTransform) (interp : Interp)
    (hsvT : Image → Image) (doHsv doMirror : Bool) (image : Image)
    (input_dim : ℕ × ℕ) :
    (t.call interp hsvT doHsv doMirror image [] input_dim).1 =
      (preproc interp image input_dim).1 ∧
    (t.call interp hsvT doHsv doMirror image [] input_dim).2.1 =
      List.replicate t.max_labels zeroRow ∧
    (t.call interp hsvT doHsv doMirror image [] input_dim).2.1.length =
      t.max_labels ∧
    (t.call interp hsvT doHsv doMirror image [] input_dim).2.2.1.rows =
      t.max_labels ∧
    (t.call interp hsvT doHsv doMirror image [] input_dim).2.2.1.cols =
      t.num_total_anchor ∧
    (∀ i j,
      (t.call interp hsvT doHsv doMirror image [] input_dim).2.2.1.entry i j =
        false) ∧
    (t.call interp hsvT doHsv doMirror image [] input_dim).2.2.2.rows =
      t.max_labels ∧
    (t.call interp hsvT doHsv doMirror image [] input_dim).2.2.2.cols =
      t.num_total_anchor ∧
    (∀ i j,
      (t.call interp hsvT doHsv doMirror image [] input_dim).2.2.2.entry i j =
        false) :=
  ⟨rfl, rfl, by simp [TrainTransform.call], rfl, rfl, fun i j => rfl, rfl, rfl,
    fun i j => rfl⟩

/-- C2: in `get_in_boxes_info`, for every slot `i` below `true_labels`, a
box whose interior strictly contains the anchor centre
`((grid_index + 0.5) * stride)` makes entry `(i, j)` of `is_in_boxes` True;
an anchor whose centre lies outside both the box and the `2.5 * stride`
half-width square around the box centre gives False at `(i, j)` in both
returned masks; and for every slot `i >= true_labels`, every entry of both
returned masks is False regardless of the padded box geometry. -/
theorem c2_get_in_boxes_info_geometry (t : TrainTransform) (gt : List Box)
    (tl i j : ℕ) :
    (i < tl →
      insideBoxQ (gt.getD i box0) (t.get_grid.getD j anchor0) →
      (t.is_in_boxes gt tl).entry i j = true) ∧
    (¬ insideBoxQ (gt.getD i box0) (t.get_grid.getD j anchor0) →
      ¬ insideSquareQ (gt.getD i box0) (t.get_grid.getD j anchor0) →
      (t.get_in_boxes_info gt tl).1.entry i j = false ∧
      (t.get_in_boxes_info gt tl).2.entry i j = false) ∧
    (tl ≤ i →
      (t.get_in_boxes_info gt tl).1.entry i j = false ∧
      (t.get_in_boxes_info gt tl).2.entry i j = false) := by
  refine ⟨?_, ?_, ?_⟩
  · intro hi hin
    simp only [TrainTransform.is_in_boxes, Bool.and_eq_true, decide_eq_true_eq]
    exact ⟨hi, (inBoxB_iff _ _).mpr hin⟩
  · intro hbox hsq
    have hb : inBoxB (gt.getD i box0) (t.get_grid.getD j anchor0) = false := by
      rw [← Bool.not_eq_true, inBoxB_iff]
      exact hbox
    have hc : inCenterB (gt.getD i box0) (t.get_grid.getD j anchor0) = false := by
      rw [← Bool.not_eq_true, inCenterB_iff]
      exact hsq
    constructor
    · simp only [TrainTransform.get_in_boxes_info, TrainTransform.is_in_boxes,
        TrainTransform.is_in_centers]
      rw [hb, hc]
      simp
    · simp only [TrainTransform.get_in_boxes_info, TrainTransform.is_in_boxes,
        TrainTransform.is_in_centers]
      rw [hb, hc]
      simp
  · intro hi
    have hlt : decide (i < tl) = false := decide_eq_false (not_lt.mpr hi)
    constructor
    · simp only [TrainTransform.get_in_boxes_info, TrainTransform.is_in_boxes,
        TrainTransform.is_in_centers]
      rw [hlt]
      simp
    · simp only [TrainTransform.get_in_boxes_info, TrainTransform.is_in_boxes,
        TrainTransform.is_in_centers]
      rw [hlt]
      simp

/-- Concrete witness for C2, on the one-anchor configuration `tcfg`: a box
centred on the anchor centre marks `is_in_boxes` True; a far-away box gives
False in both masks; the padding slot is False in both masks. -/
theorem c2_get_in_boxes_info_geometry_witness :
    ((0 < 1 ∧
        insideBoxQ ([(⟨4, 4, 2, 2⟩ : Box), ⟨100, 100, 2, 2⟩].getD 0 box0)
          (tcfg.get_grid.getD 0 anchor0)) ∧
      (tcfg.is_in_boxes [⟨4, 4, 2, 2⟩, ⟨100, 100, 2, 2⟩] 1).entry 0 0 = true) ∧
    ((¬ insideBoxQ ([(⟨100, 100, 2, 2⟩ : Box)].getD 0 box0)
          (tcfg.get_grid.getD 0 anchor0) ∧
      ¬ insideSquareQ ([(⟨100, 100, 2, 2⟩ : Box)].getD 0 box0)
          (tcfg.get_grid.getD 0 anchor0)) ∧
      (tcfg.get_in_boxes_info [⟨100, 100, 2, 2⟩] 1).1.entry 0 0 = false ∧
      (tcfg.get_in_boxes_info [⟨100, 100, 2, 2⟩] 1).2.entry 0 0 = false) ∧
    (1 ≤ 1 ∧
      (tcfg.get_in_boxes_info [⟨4, 4, 2, 2⟩] 1).1.entry 1 0 = false ∧
      (tcfg.get_in_boxes_info [⟨4, 4, 2, 2⟩] 1).2.entry 1 0 = false) := by
  have hgrid : tcfg.get_grid = [⟨0, 0, 8⟩] := rfl
  have hin : insideBoxQ ([(⟨4, 4, 2, 2⟩ : Box), ⟨100, 100, 2, 2⟩].getD 0 box0)
      (tcfg.get_grid.getD 0 anchor0) := by
    rw [hgrid]
    simp only [List.getD, List.getElem?_cons_zero, Option.getD_some]
    norm_num [insideBoxQ, anchorCx, anchorCy]
  have hnbox : ¬ insideBoxQ ([(⟨100, 100, 2, 2⟩ : Box)].getD 0 box0)
      (tcfg.get_grid.getD 0 anchor0) := by
    rw [hgrid]
    simp only [List.getD, List.getElem?_cons_zero, Option.getD_some]
    norm_num [insideBoxQ, anchorCx, anchorCy]
  have hnsq : ¬ insideSquareQ ([(⟨100, 100, 2, 2⟩ : Box)].getD 0 box0)
      (tcfg.get_grid.getD 0 anchor0) := by
    rw [hgrid]
    simp only [List.getD, List.getElem?_cons_zero, Option.getD_some]
    norm_num [insideSquareQ, anchorCx, anchorCy]
  exact ⟨⟨⟨Nat.one_pos, hin⟩,
      (c2_get_in_boxes_info_geometry tcfg [⟨4, 4, 2, 2⟩, ⟨100, 100, 2, 2⟩] 1 0 0).1
        Nat.one_pos hin⟩,
    ⟨⟨hnbox, hnsq⟩,
      (c2_get_in_boxes_info_geometry tcfg [⟨100, 100, 2, 2⟩] 1 0 0).2.1 hnbox hnsq⟩,
    ⟨le_refl 1,
      (c2_get_in_boxes_info_geometry tcfg [⟨4, 4, 2, 2⟩] 1 1 0).2.2 (le_refl 1)⟩⟩

theorem strideGrid_length (gx gy s : ℕ) :
    (strideGrid gx gy s).length = gx * gy := by
  have hc : (List.length ∘ fun i =>
      List.map (fun j => (⟨j, i, s⟩ : Anchor)) (List.range gy)) = fun _ => gy := by
    funext i
    simp
  rw [strideGrid, List.length_flatMap, hc, List.map_const', List.sum_replicate,
    List.length_range, smul_eq_mul]

theorem get_grid_length (t : TrainTransform) :
    t.get_grid.length =
      (t.strides.map fun s => (t.input_size.1 / s) * (t.input_size.2 / s)).sum := by
  rw [TrainTransform.get_grid, List.length_flatMap]
  congr 1
  apply List.map_congr_left
  intro s hs
  simp [strideGrid_length]

theorem default_get_grid_length (ml : ℕ) (fp hp : ℚ) :
    (TrainTransform.init ml fp hp none).get_grid.length = 8400 := by
  rw [get_grid_length]
  simp only [TrainTransform.init]
  rfl

theorem default_num_total_anchor (ml : ℕ) (fp hp : ℚ) :
    (TrainTransform.init ml fp hp none).num_total_anchor = 8400 := by
  simp only [TrainTransform.num_total_anchor, TrainTransform.grid_size,
    TrainTransform.init, List.map_cons, List.map_nil, List.sum_cons,
    List.sum_nil]
  norm_num
  rfl

/-- C10: the anchor grid used by the membership masks is computed from the
`input_size` fixed at construction (default `(640, 640)`), not from the
`input_dim` argument of the call: for every call, both returned masks have
anchor dimension 8400, and both the grid length and `num_total_anchor` of
the default-constructed instance equal 8400, so the anchor dimension is
invariant across calls even when `input_dim` varies. -/
theorem c10_anchor_dim_from_init_size (ml : ℕ) (fp hp : ℚ) (interp : Interp)
    (hsvT : Image → Image) (doHsv doMirror : Bool) (image : Image)
    (targets : List TgtRow) (input_dim : ℕ × ℕ) :
    ((TrainTransform.init ml fp hp none).call interp hsvT doHsv doMirror image
        targets input_dim).2.2.1.cols = 8400 ∧
    ((TrainTransform.init ml fp hp none).call interp hsvT doHsv doMirror image
        targets input_dim).2.2.2.cols = 8400 ∧
    (TrainTransform.init ml fp hp none).get_grid.length = 8400 ∧
    (TrainTransform.init ml fp hp none).num_total_anchor = 8400 := by
  refine ⟨?_, ?_, default_get_grid_length ml fp hp,
    default_num_total_anchor ml fp hp⟩
  · by_cases hemp : targets = []
    · subst hemp
      simp only [TrainTransform.call, if_pos rfl]
      exact default_num_total_anchor ml fp hp
    · simp only [TrainTransform.call, if_neg hemp, Mask.outerAgg,
        TrainTransform.get_in_boxes_info]
      exact default_get_grid_length ml fp hp
  · by_cases hemp : targets = []
    · subst hemp
      simp only [TrainTransform.call, if_pos rfl]
      exact default_num_total_anchor ml fp hp
    · simp only [TrainTransform.call, if_neg hemp, Mask.outerAgg,
        TrainTransform.get_in_boxes_info]
      exact default_get_grid_length ml fp hp

/-- C1 counterexample: on the one-anchor configuration `tcfg`
(`max_labels = 2`, `total_anchors = 1`), the second returned mask
(`is_in_boxes_and_center`) does not have `total_anchors` rows — its row
count is `max_labels`, so its shape is not
`(total_anchors, total_anchors)`. -/
theorem c1_second_mask_shape_counterexample :
    (tcfg.call interp0 id false false img8 [⟨⟨0, 0, 8, 8⟩, 1⟩] (8, 8)).2.2.2.rows ≠
      tcfg.get_grid.length := by
  decide

/-- C1 (amended): `__call__` returns two boolean masks: the first, the
aggregated `is_in_boxes_all` (OR of `is_in_boxes` and `is_in_centers`,
outer product of the any-over-anchors vector with the any-over-ground-truths
vector), has shape `(max_labels, total_anchors)`, and the second,
`is_in_boxes_and_center`, returned unaggregated, also has shape
`(max_labels, total_anchors)`, where `total_anchors` is the sum over strides
of `(input_h/stride) * (input_w/stride)` for the constructed input size
`(640, 640)`. -/
theorem c1_mask_shapes_amended (ml : ℕ) (fp hp : ℚ) (interp : Interp)
    (hsvT : Image → Image) (doHsv doMirror : Bool) (image : Image)
    (targets : List TgtRow) (input_dim : ℕ × ℕ) :
    ((TrainTransform.init ml fp hp none).call interp hsvT doHsv doMirror image
        targets input_dim).2.2.1.rows = ml ∧
    ((TrainTransform.init ml fp hp none).call interp hsvT doHsv doMirror image
        targets input_dim).2.2.1.cols =
      640 / 8 * (640 / 8) + 640 / 16 * (640 / 16) + 640 / 32 * (640 / 32) ∧
    ((TrainTransform.init ml fp hp none).call interp hsvT doHsv doMirror image
        targets input_dim).2.2.2.rows = ml ∧
    ((TrainTransform.init ml fp hp none).call interp hsvT doHsv doMirror image
        targets input_dim).2.2.2.cols =
      640 / 8 * (640 / 8) + 640 / 16 * (640 / 16) + 640 / 32 * (640 / 32) := by
  have hsum : (640 / 8 * (640 / 8) + 640 / 16 * (640 / 16) +
      640 / 32 * (640 / 32) : ℕ) = 8400 := by norm_num
  rw [hsum]
  by_cases hemp : targets = []
  · subst hemp
    simp only [TrainTransform.call, if_pos rfl]
    exact ⟨rfl, default_num_total_anchor ml fp hp, rfl,
      default_num_total_anchor ml fp hp⟩
  · simp only [TrainTransform.call, if_neg hemp, Mask.outerAgg,
      TrainTransform.get_in_boxes_info]
    exact ⟨rfl, default_get_grid_length ml fp hp, rfl,
      default_get_grid_length ml fp hp⟩

theorem rows_of_zip (f : Box → Box) (targets : List TgtRow) :
    ((((targets.map fun r => xyxy2cxcywh r.box).map fun b => f b).zip
        (targets.map fun r => r.label)).map fun p => row5 p.2 p.1) =
      targets.map fun r => row5 r.label (f (xyxy2cxcywh r.box)) := by
  induction targets with
  | nil => rfl
  | cons r rest ih => simpa using ih

/-- C4: when the post-augmentation size filter (`min(w, h) > 1`) drops every
box, `__call__` returns as its padded targets the un-augmented original
boxes converted to centre format and rescaled by the resize ratio of the
un-augmented image, with their original labels, and that fallback row list
is never empty. -/
theorem c4_fallback_on_all_dropped (t : TrainTransform) (interp : Interp)
    (hsvT : Image → Image) (doHsv doMirror : Bool) (image : Image)
    (targets : List TgtRow) (input_dim : ℕ × ℕ)
    (hne : targets ≠ [])
    (hdrop : ∀ b ∈ scaledBoxes interp hsvT doHsv doMirror image targets input_dim,
      min b.v2 b.v3 ≤ 1) :
    (t.call interp hsvT doHsv doMirror image targets input_dim).2.1 =
      padRows t.max_labels (targets.map fun r =>
        row5 r.label
          (scaleBox (preproc interp image input_dim).2 (xyxy2cxcywh r.box))) ∧
    (targets.map fun r =>
        row5 r.label
          (scaleBox (preproc interp image input_dim).2 (xyxy2cxcywh r.box))) ≠
      [] := by
  have hkept : ((scaledBoxes interp hsvT doHsv doMirror image targets
      input_dim).zip (targets.map fun r => r.label)).filter
        (fun p => decide (1 < min p.1.v2 p.1.v3)) = [] := by
    rw [List.filter_eq_nil_iff]
    rintro ⟨b, lab⟩ hp
    have hb := (List.of_mem_zip hp).1
    have hle := hdrop b hb
    simp only [decide_eq_true_eq, not_lt]
    exact hle
  constructor
  · simp only [TrainTransform.call, if_neg hne, hkept, List.isEmpty_nil,
      if_pos]
    exact congrArg (padRows t.max_labels)
      (rows_of_zip (fun b => scaleBox (preproc interp image input_dim).2 b)
        targets)
  · intro h
    exact hne (List.map_eq_nil_iff.mp h)

/-- Concrete witness for C4: on `tcfg` with an 8-by-8 image and a half-pixel
box, every augmented box is dropped and the fallback rows are returned. -/
theorem c4_fallback_on_all_dropped_witness :
    ([(⟨⟨0, 0, 1/2, 1/2⟩, 7⟩ : TgtRow)] ≠ [] ∧
      (∀ b ∈ scaledBoxes interp0 id false false img8
          [⟨⟨0, 0, 1/2, 1/2⟩, 7⟩] (8, 8), min b.v2 b.v3 ≤ 1)) ∧
    (tcfg.call interp0 id false false img8
        [⟨⟨0, 0, 1/2, 1/2⟩, 7⟩] (8, 8)).2.1 =
      padRows tcfg.max_labels
        ([(⟨⟨0, 0, 1/2, 1/2⟩, 7⟩ : TgtRow)].map fun r =>
          row5 r.label
            (scaleBox (preproc interp0 img8 (8, 8)).2 (xyxy2cxcywh r.box))) := by
  have hne : [(⟨⟨0, 0, 1/2, 1/2⟩, 7⟩ : TgtRow)] ≠ [] := by
    intro h
    exact List.cons_ne_nil _ _ h
  have hr : (preproc interp0 img8 (8, 8)).2 = 1 := by
    norm_num [preproc, preproc_r, img8, min_def]
  have hdrop : ∀ b ∈ scaledBoxes interp0 id false false img8
      [⟨⟨0, 0, 1/2, 1/2⟩, 7⟩] (8, 8), min b.v2 b.v3 ≤ 1 := by
    intro b hb
    simp [scaledBoxes, augBoxes, augImage, hr] at hb
    rw [hb]
    norm_num [scaleBox, xyxy2cxcywh, min_def]
  exact ⟨⟨hne, hdrop⟩,
    (c4_fallback_on_all_dropped tcfg interp0 id false false img8
      [⟨⟨0, 0, 1/2, 1/2⟩, 7⟩] (8, 8) hne hdrop).1⟩

/-- Concrete witness for C7: with the trivial interpolation oracle and an
all-zero source image, a padding-region pixel (column 400) is exactly 114
and a placed-region pixel comes from the resize oracle. -/
theorem c7_preproc_100_50_witness :
    ((320 ≤ 400 ∧
      (preproc interp0 ⟨100, 50, fun _ _ _ => 0⟩ (640, 640)).1.pix 0 0 400 =
        114) ∧
     ((0 < 640 ∧ 100 < 320) ∧
      (preproc interp0 ⟨100, 50, fun _ _ _ => 0⟩ (640, 640)).1.pix 0 0 100 =
        interp0 ⟨100, 50, fun _ _ _ => 0⟩ 320 640 0 100 0)) :=
  ⟨⟨by norm_num,
    (c7_preproc_100_50 interp0 (fun _ _ _ => 0)).2.2.2.2.2.2.2 0 0 400
      (by norm_num)⟩,
   ⟨⟨by norm_num, by norm_num⟩,
    (c7_preproc_100_50 interp0 (fun _ _ _ => 0)).2.2.2.2.2.2.1 0 0 100
      (by norm_num) (by norm_num)⟩⟩

end Yolox
